import Mathlib

/-!
Verification of the Farmaponte / Vera Cruz pharmacy-scraper pipeline.

The Python sources are shallowly embedded: the HTML soup that BeautifulSoup
produces is modelled structurally (anchors with `href`/classes, candidate
`div` texts, parsed JSON-LD blocks), the network is modelled as a map from
attempt number to an attempt outcome, and the shared scraper state (response
cache, consecutive-error counter) is passed explicitly.  Fallible Python
operations (`int(...)`, regex search, price cleaning) become `Option`-valued
Lean functions.
-/

namespace Farma

/-! ### Python string primitives used by the scrapers

All string operations are implemented by structural (or fuel-bounded)
recursion over character lists, so that every definition evaluates inside
the kernel on concrete inputs. -/

/-- `pat` occurs at the head of `cs`. -/
def isPrefixL : List Char → List Char → Bool
  | [], _ => true
  | _ :: _, [] => false
  | p :: ps, c :: cs => p = c && isPrefixL ps cs

/-- `pat` occurs somewhere in the list (Python `pat in s`). -/
def occursL (pat : List Char) : List Char → Bool
  | [] => isPrefixL pat []
  | c :: rest => isPrefixL pat (c :: rest) || occursL pat rest

/-- Model of Python's substring test `pat in s`. -/
def containsSubstr (s pat : String) : Bool :=
  occursL pat.toList s.toList

/-- Model of Python `s.startswith(pat)`. -/
def strStartsWith (s pat : String) : Bool :=
  isPrefixL pat.toList s.toList

/-- Model of Python `s.endswith(pat)`. -/
def strEndsWith (s pat : String) : Bool :=
  isPrefixL pat.toList.reverse s.toList.reverse

/-- Fuel-bounded worker for splitting on a non-empty separator; `acc` holds
the current piece reversed.  With `fuel = length + 1` the fuel never runs
out. -/
def splitOnFuel (sep : List Char) : Nat → List Char → List Char →
    List (List Char)
  | 0, s, acc => [acc.reverse ++ s]
  | fuel + 1, s, acc =>
    match s with
    | [] => [acc.reverse]
    | c :: rest =>
      if isPrefixL sep (c :: rest) then
        acc.reverse :: splitOnFuel sep fuel ((c :: rest).drop sep.length) []
      else splitOnFuel sep fuel rest (c :: acc)

/-- Model of Python `s.split(sep)` for a non-empty separator (the scrapers
never split on an empty one). -/
def strSplitOn (s sep : String) : List String :=
  if sep = "" then [s]
  else (splitOnFuel sep.toList (s.toList.length + 1) s.toList []).map
    (fun cs => String.mk cs)

/-- Model of Python `sep.join(pieces)`. -/
def joinWith (sep : String) : List String → String
  | [] => ""
  | [x] => x
  | x :: y :: rest => x ++ sep ++ joinWith sep (y :: rest)

/-- Model of Python `s.lower()` (ASCII, which is all the tokens need). -/
def strToLower (s : String) : String :=
  String.mk (s.toList.map Char.toLower)

/-- Model of Python `str.strip()` : drop whitespace from both ends. -/
def pyStrip (s : String) : String :=
  String.mk (((s.toList.dropWhile Char.isWhitespace).reverse.dropWhile
    Char.isWhitespace).reverse)

/-- Fuel-bounded worker for whitespace splitting. -/
def pySplitWsFuel : Nat → List Char → List (List Char)
  | 0, _ => []
  | _ + 1, [] => []
  | fuel + 1, c :: rest =>
    if c.isWhitespace then pySplitWsFuel fuel rest
    else (c :: rest.takeWhile (fun d => !d.isWhitespace)) ::
      pySplitWsFuel fuel (rest.dropWhile (fun d => !d.isWhitespace))

/-- Model of Python `str.split()` with no argument: split on whitespace
runs, dropping empty pieces. -/
def pySplitWs (s : String) : List String :=
  (pySplitWsFuel (s.toList.length + 1) s.toList).map (fun cs => String.mk cs)

/-- Model of `' '.join(text.split())` — collapse whitespace runs to single
spaces, used for price-text normalisation. -/
def normWs (s : String) : String :=
  joinWith " " (pySplitWs s)

/-- Number of occurrences of a character, Python `s.count(c)`. -/
def countChar (s : String) (c : Char) : Nat :=
  s.toList.count c

/-- Model of Python `s.strip(c)` for a single-character argument. -/
def pyStripChar (s : String) (c : Char) : String :=
  String.mk (((s.toList.dropWhile (· = c)).reverse.dropWhile (· = c)).reverse)

/-- Numeric value of a digit run. -/
def digitsVal (cs : List Char) : Nat :=
  cs.foldl (fun acc c => acc * 10 + (c.toNat - '0'.toNat)) 0

/-- Model of Python `int(s)`: optional surrounding whitespace, optional sign,
then a non-empty digit run; anything else raises `ValueError`, modelled as
`none`. -/
def pyInt (s : String) : Option Int :=
  let cs := s.toList.dropWhile Char.isWhitespace
  let signed : Bool × List Char :=
    match cs with
    | '-' :: r => (true, r)
    | '+' :: r => (false, r)
    | _ => (false, cs)
  let digits := signed.2.takeWhile Char.isDigit
  let rest := signed.2.dropWhile Char.isDigit
  if digits ≠ [] ∧ rest.all Char.isWhitespace then
    some (if signed.1 then -(digitsVal digits : Int) else (digitsVal digits : Int))
  else
    none

/-- Model of `urllib.parse.urljoin` restricted to the href shapes this
codebase produces: absolute URLs pass through, root-relative hrefs are
resolved against the scheme+host of the base, other hrefs are appended to the
base (all the scrapers' bases end in `/`). -/
def urljoin (base href : String) : String :=
  if href = "" then base
  else if strStartsWith href "http://" ∨ strStartsWith href "https://" then href
  else if strStartsWith href "/" then
    match strSplitOn base "://" with
    | scheme :: rest :: _ =>
      scheme ++ "://" ++ String.mk (rest.toList.takeWhile (· != '/')) ++ href
    | _ => href
  else base ++ href

/-- Base URL shared by both Farmaponte scraper classes. -/
def farmaponteBase : String := "https://www.farmaponte.com.br/"

/-! ### Rate-limited fetcher (`FarmaponteScraper.fetch_page`,
`FarmaponteScraper.baixar_url`)

The network is a function from attempt number to the outcome of that attempt.
Timeouts and connection errors are exceptions in the Python clients; non-200
statuses are ordinary responses.  Sleeps/backoff delays do not affect the
returned value and are not modelled. -/

/-- Outcome of one HTTP attempt, as the fetchers distinguish them. -/
inductive AttemptOutcome where
  | ok (body : String)
  | status429
  | statusOther (code : Nat)
  | timeout
  | netError
  deriving DecidableEq, Repr

/-- An attempt outcome that is not a 200 response. -/
def AttemptOutcome.isFailure : AttemptOutcome → Bool
  | .ok _ => false
  | _ => true

/-- Retry loop of `fetch_page` (extracao_farmaponte.py:100-125 and
enhanced_scraper.py:95-120): starting at attempt `start` with `fuel` attempts
left, return the body of the first 200 response, else `None`. -/
def fetchPageGo (net : Nat → AttemptOutcome) : Nat → Nat → Option String
  | _, 0 => none
  | start, fuel + 1 =>
    match net start with
    | .ok body => some body
    | _ => fetchPageGo net (start + 1) fuel

/-- `fetch_page(url, retries)`: run the retry loop from attempt 0. -/
def fetchPage (net : Nat → AttemptOutcome) (retries : Nat) : Option String :=
  fetchPageGo net 0 retries

/-- Number of network requests one `fetch_page` call issues (starting at
attempt `start` with `fuel` attempts left): every attempt is a fresh request
— `fetch_page` keeps no cache and no state between calls. -/
def fetchPageRequests (net : Nat → AttemptOutcome) : Nat → Nat → Nat
  | _, 0 => 0
  | start, fuel + 1 =>
    match net start with
    | .ok _ => 1
    | _ => fetchPageRequests net (start + 1) fuel + 1

/-- Shared mutable state of `FarmaponteScraper` in scrapper.py: the response
cache keyed by exact URL and the consecutive-error counter. -/
structure ScraperState where
  urlCache : List (String × String)
  consecutiveErrors : Nat
  deriving DecidableEq, Repr

/-- Bookkeeping for the request counter the embedding adds: one more network
request was issued before the recursive outcome `r`. -/
def bump (r : Option String × ScraperState × Nat) :
    Option String × ScraperState × Nat :=
  (r.1, r.2.1, r.2.2 + 1)

/-- Retry loop of `baixar_url` (scrapper.py:401-437).  Returns the result,
the updated state, and the number of network requests issued.  On a 200 the
error counter is reset and the body cached under the exact URL; every failure
increments the error counter. -/
def baixarUrlGo (net : Nat → AttemptOutcome) (url : String) :
    Nat → Nat → ScraperState → Option String × ScraperState × Nat
  | _, 0, st => (none, st, 0)
  | attempt, fuel + 1, st =>
    match net attempt with
    | .ok body =>
      (some body,
       { urlCache := st.urlCache ++ [(url, body)], consecutiveErrors := 0 },
       1)
    | _ =>
      bump (baixarUrlGo net url (attempt + 1) fuel
        { st with consecutiveErrors := st.consecutiveErrors + 1 })

/-- `baixar_url(url, tentativas)` (scrapper.py:394-439): cache check first —
a cached URL is answered with zero network requests — otherwise the retry
loop. -/
def baixarUrl (net : Nat → AttemptOutcome) (url : String) (tentativas : Nat)
    (st : ScraperState) : Option String × ScraperState × Nat :=
  match st.urlCache.lookup url with
  | some body => (some body, st, 0)
  | none => baixarUrlGo net url 0 tentativas st

/-! ### HTML model

BeautifulSoup trees are modelled structurally: an anchor is its `href`
attribute (absent or a string) plus its class list; a category page carries
the document-order list of all its anchors and of its candidate product
containers. -/

structure Anchor where
  href : Option String
  classes : List String
  deriving DecidableEq, Repr

structure Container where
  classes : List String
  anchors : List Anchor
  deriving DecidableEq, Repr

structure CatPage where
  anchors : List Anchor
  containers : List Container
  deriving DecidableEq, Repr

/-! ### Link extractor (`extract_product_links_from_page`,
`extract_product_links_from_page_enhanced`) -/

/-- Python `set.add`: insert a URL only if it is not already present.  The
accumulated set is modelled as an insertion-ordered duplicate-free list. -/
def setAdd (s : List String) (u : String) : List String :=
  if u ∈ s then s else s ++ [u]

/-- One extraction strategy: for each anchor in order, if the strategy's
guard yields a resolved URL, add it to the accumulated set. -/
def extendWith (f : Anchor → Option String) :
    List String → List Anchor → List String
  | s, [] => s
  | s, a :: rest =>
    extendWith f
      (match f a with
       | some u => setAdd s u
       | none => s) rest

/-- Method 1 (extracao_farmaponte.py:143-150, enhanced_scraper.py:221-226):
anchors with class `item-image` and a truthy `href`, resolved against the
base. -/
def method1 (base : String) (a : Anchor) : Option String :=
  match a.href with
  | some h => if "item-image" ∈ a.classes ∧ h ≠ "" then some (urljoin base h) else none
  | none => none

/-- Method 2, original scraper (extracao_farmaponte.py:154-161): anchors with
a truthy `href` ending in `/p`. -/
def method2 (base : String) (a : Anchor) : Option String :=
  match a.href with
  | some h => if h ≠ "" ∧ strEndsWith h "/p" then some (urljoin base h) else none
  | none => none

/-- `extract_product_links_from_page(html, base_url)`
(extracao_farmaponte.py:127-163): union of methods 1 and 2 into one set. -/
def extract_product_links_from_page (page : CatPage) (baseUrl : String) :
    List String :=
  extendWith (method2 baseUrl) (extendWith (method1 baseUrl) [] page.anchors)
    page.anchors

/-- Method 2, enhanced scraper (enhanced_scraper.py:229-236): additionally
requires at least two `/` in the href (skips category-level links). -/
def method2e (base : String) (a : Anchor) : Option String :=
  match a.href with
  | some h =>
    if h ≠ "" ∧ strEndsWith h "/p" ∧ countChar h '/' ≥ 2 then
      some (urljoin base h)
    else none
  | none => none

def skipTokens : List String := ["javascript:", "mailto:", "tel:", "#"]

def productIndicators : List String :=
  ["ml", "mg", "gr", "com-", "caixa", "frasco", "cx", "un", "und"]

def categoryTokens : List String := ["categoria", "brand", "marca"]

/-- The `is_product` classification of enhanced method 3
(enhanced_scraper.py:251-266). -/
def isProductHref (h : String) : Bool :=
  (strEndsWith h "/p" ∧ countChar h '/' ≥ 2 ∧
    (strSplitOn (pyStripChar h '/') "/").length ≥ 2 ∧
    ¬ categoryTokens.any (fun c => containsSubstr h c)) ∨
  (productIndicators.any (fun ind => containsSubstr (strToLower h) ind) ∧
    containsSubstr h "/p")

/-- Method 3 (enhanced_scraper.py:238-269): general anchor scan — skip
external domains and excluded schemes, keep product-like hrefs. -/
def method3e (base : String) (a : Anchor) : Option String :=
  match a.href with
  | none => none
  | some h =>
    if strStartsWith h "http" ∧ ¬ containsSubstr h "farmaponte.com.br" then none
    else if skipTokens.any (fun t => containsSubstr (strToLower h) t) then none
    else if isProductHref h then some (urljoin base h)
    else none

/-- A container is product-like when one of its classes contains `product`,
`item` or `card` (enhanced_scraper.py:273-275). -/
def containerIsProductLike (c : Container) : Bool :=
  c.classes.any (fun cl =>
    ["product", "item", "card"].any (fun pc => containsSubstr (strToLower cl) pc))

/-- Method 4 guard on anchors inside product-like containers
(enhanced_scraper.py:277-284). -/
def method4e (base : String) (a : Anchor) : Option String :=
  match a.href with
  | some h =>
    if h ≠ "" ∧ containsSubstr h "/p" ∧ strEndsWith h "/p" then
      some (urljoin base h)
    else none
  | none => none

/-- `extract_product_links_from_page_enhanced(html, base_url)`
(enhanced_scraper.py:212-286): union of all four strategies. -/
def extract_product_links_from_page_enhanced (page : CatPage)
    (baseUrl : String) : List String :=
  extendWith (method4e baseUrl)
    (extendWith (method3e baseUrl)
      (extendWith (method2e baseUrl)
        (extendWith (method1 baseUrl) [] page.anchors)
        page.anchors)
      page.anchors)
    ((page.containers.filter containerIsProductLike).flatMap
      (fun c => c.anchors.filter (fun a => a.href.isSome)))

/-! ### Pagination / results-count discovery (`achar_total_paginas`,
`get_category_info`) -/

/-- Match the regex `Página\s+\d+\s+de\s+(\d+)` at the head of the character
list; on success return the value of the captured digit run. -/
def matchPaginaAt (cs : List Char) : Option Nat :=
  let lit := "Página".toList
  if cs.take lit.length = lit then
    let r1 := cs.drop lit.length
    let ws1 := r1.takeWhile Char.isWhitespace
    if ws1 = [] then none else
    let r2 := r1.drop ws1.length
    let d1 := r2.takeWhile Char.isDigit
    if d1 = [] then none else
    let r3 := r2.drop d1.length
    let ws2 := r3.takeWhile Char.isWhitespace
    if ws2 = [] then none else
    match r3.drop ws2.length with
    | 'd' :: 'e' :: r5 =>
      let ws3 := r5.takeWhile Char.isWhitespace
      if ws3 = [] then none else
      let d2 := (r5.drop ws3.length).takeWhile Char.isDigit
      if d2 = [] then none else some (digitsVal d2)
    | _ => none
  else none

/-- `re.search` for the pagination pattern: leftmost match wins. -/
def searchPagina : List Char → Option Nat
  | [] => none
  | c :: rest =>
    match matchPaginaAt (c :: rest) with
    | some n => some n
    | none => searchPagina rest

/-- Loop body of `achar_total_paginas` (scrapper.py:255-263): scan candidate
div texts; a div whose text contains `Página` and matches the regex decides
the page count; otherwise keep scanning, defaulting to 1. -/
def acharTotalPaginasLoop : List String → Nat
  | [] => 1
  | t :: ts =>
    if containsSubstr t "Página" then
      match searchPagina t.toList with
      | some n => n
      | none => acharTotalPaginasLoop ts
    else acharTotalPaginasLoop ts

/-- `achar_total_paginas(soup)` (scrapper.py:252-263): `none` models a page
with no `page-template` container (then 1); otherwise the texts of its
`text-center pt-3` divs are scanned. -/
def achar_total_paginas (container : Option (List String)) : Nat :=
  match container with
  | none => 1
  | some texts => acharTotalPaginasLoop texts

/-- Loop of `get_category_info` (extracao_farmaponte.py:191-214) over the
`text-center pt-3` div texts, threading `(num_pages, num_products)`.  The
results-count branch requires the plural token `resultados`. -/
def getCategoryInfoLoop : List String → Int × Int → Int × Int
  | [], st => st
  | t :: ts, (pages, products) =>
    if containsSubstr t "Página" ∧ containsSubstr t " de " then
      if (strSplitOn t " de ").length > 1 then
        match pyInt ((strSplitOn t " de ").getD 1 "") with
        | some n => getCategoryInfoLoop ts (n, products)
        | none => getCategoryInfoLoop ts (pages, products)
      else getCategoryInfoLoop ts (pages, products)
    else if containsSubstr t "resultados" then
      match pyInt (pyStrip ((strSplitOn t " resultados").getD 0 "")) with
      | some n => getCategoryInfoLoop ts (pages, n)
      | none => getCategoryInfoLoop ts (pages, products)
    else getCategoryInfoLoop ts (pages, products)

/-- `get_category_info` (extracao_farmaponte.py:165-216), counts part:
both counters start at 0. -/
def get_category_info (texts : List String) : Int × Int :=
  getCategoryInfoLoop texts (0, 0)

/-- Loop of the enhanced `get_category_info` (enhanced_scraper.py:179-202):
the results-count branch accepts singular or plural and splits on whichever
token is present. -/
def getCategoryInfoEnhancedLoop : List String → Int × Int → Int × Int
  | [], st => st
  | t :: ts, (pages, products) =>
    if containsSubstr t "Página" ∧ containsSubstr t " de " then
      if (strSplitOn t " de ").length > 1 then
        match pyInt ((strSplitOn t " de ").getD 1 "") with
        | some n => getCategoryInfoEnhancedLoop ts (n, products)
        | none => getCategoryInfoEnhancedLoop ts (pages, products)
      else getCategoryInfoEnhancedLoop ts (pages, products)
    else if containsSubstr t "resultados" ∨ containsSubstr t "resultado" then
      match pyInt (pyStrip (((if containsSubstr t "resultados" then
          strSplitOn t " resultados" else strSplitOn t " resultado")).getD 0 "")) with
      | some n => getCategoryInfoEnhancedLoop ts (pages, n)
      | none => getCategoryInfoEnhancedLoop ts (pages, products)
    else getCategoryInfoEnhancedLoop ts (pages, products)

/-- Enhanced `get_category_info` (enhanced_scraper.py:163-210), counts
part. -/
def get_category_info_enhanced (texts : List String) : Int × Int :=
  getCategoryInfoEnhancedLoop texts (0, 0)

/-! ### Detail extractor (`extract_product_details`) -/

/-- A JSON-LD `<script>` block as `extract_product_details` classifies it:
it fails to parse, parses to something that is not a `Product` dict, or is a
`Product` dict with its `gtin13` value (`""` when the key is absent). -/
inductive JsonScript where
  | malformed
  | nonProduct
  | product (gtin13 : String)
  deriving DecidableEq, Repr

/-- Structural model of a fetched product page: each selector lookup of
`extract_product_details` is an optional element text (the discount-price and
pix lookups are modelled by the final element their lookup chain finds); the
pix element also carries its optional `data-discount` attribute; `anchors` is
the document-order anchor list used for the clean-link search. -/
structure ProductPage where
  nameEl : Option String
  brandEl : Option String
  jsonScripts : List JsonScript
  anchors : List Anchor
  codeEl : Option String
  discountEl : Option String
  unitPriceEl : Option String
  salePriceEl : Option String
  pixEl : Option (String × Option String)
  subCategoryEl : Option String
  deriving DecidableEq, Repr

/-- The record `extract_product_details` builds
(extracao_farmaponte.py:318-330). -/
structure ProductRecord where
  name : String
  brand : String
  code : String
  gtin : String
  discount : String
  unit_price : String
  discount_price : String
  pix_price : String
  pix_discount : String
  sub_category : String
  link : String
  deriving DecidableEq, Repr

/-- JSON-LD scan (extracao_farmaponte.py:348-359): first script that parses,
is a `Product`, and has a truthy `gtin13` wins; malformed scripts are skipped
with `continue`. -/
def findGtin : List JsonScript → String
  | [] => ""
  | .product g :: rest => if g ≠ "" then g else findGtin rest
  | .malformed :: rest => findGtin rest
  | .nonProduct :: rest => findGtin rest

/-- `soup.find('a', href=lambda x: x and x.endswith('/p'))`
(extracao_farmaponte.py:363): first anchor in document order with a truthy
href ending in `/p`. -/
def findCleanHref : List Anchor → Option String
  | [] => none
  | a :: rest =>
    match a.href with
    | some h => if h ≠ "" ∧ strEndsWith h "/p" then some h else findCleanHref rest
    | none => findCleanHref rest

/-- `element.get_text(strip=True)` on an optional element, defaulting to the
record's initial `''`. -/
def optText (e : Option String) : String :=
  match e with
  | some t => pyStrip t
  | none => ""

/-- `extract_product_details(html, product_url)`
(extracao_farmaponte.py:304-429; the enhanced copy at
enhanced_scraper.py:359-453 omits only the clean-link step).  Each field is
its selector's text or stays at its default; prices are whitespace-collapsed;
an empty brand falls back to `generico`; the link is replaced by the first
clean `/p` anchor when one exists. -/
def extract_product_details (page : ProductPage) (productUrl : String) :
    ProductRecord :=
  { name := optText page.nameEl
    brand :=
      let b := optText page.brandEl
      if b = "" then "generico" else b
    code := optText page.codeEl
    gtin := findGtin page.jsonScripts
    discount := optText page.discountEl
    unit_price :=
      match page.unitPriceEl with
      | some t => normWs (pyStrip t)
      | none => ""
    discount_price :=
      match page.salePriceEl with
      | some t => normWs (pyStrip t)
      | none => ""
    pix_price :=
      match page.pixEl with
      | some (t, _) => normWs (pyStrip t)
      | none => ""
    pix_discount :=
      match page.pixEl with
      | some (_, some d) => if d ≠ "" then d else ""
      | _ => ""
    sub_category := optText page.subCategoryEl
    link :=
      match findCleanHref page.anchors with
      | some h => urljoin farmaponteBase h
      | none => productUrl }

/-! ### Detail scraping over a URL list (`scrape_product_details`) -/

/-- One entry of the `asyncio.gather(..., return_exceptions=True)` result:
an exception object, a falsy result (`None` or empty text), or a page. -/
inductive GatherOutcome where
  | exception
  | empty
  | page (p : ProductPage)
  deriving DecidableEq, Repr

/-- A fetch outcome for which `scrape_product_details` emits the failure
sentinel. -/
def GatherOutcome.failed : GatherOutcome → Bool
  | .page _ => false
  | _ => true

/-- The sentinel record (extracao_farmaponte.py:457-469). -/
def failedRecord (url : String) : ProductRecord :=
  { name := "FAILED_TO_FETCH", brand := "", code := "", gtin := "",
    discount := "", unit_price := "", discount_price := "", pix_price := "",
    pix_discount := "", sub_category := "", link := url }

/-- Per-position processing of `scrape_product_details`
(extracao_farmaponte.py:454-487). -/
def processOne (o : GatherOutcome) (url : String) : ProductRecord :=
  match o with
  | .exception => failedRecord url
  | .page p => extract_product_details p url
  | .empty => failedRecord url

/-- `scrape_product_details(product_urls)`
(extracao_farmaponte.py:431-490, enhanced_scraper.py:455-491): zip the
gathered results with the input URLs and process positionally. -/
def scrape_product_details (results : List GatherOutcome)
    (urls : List String) : List ProductRecord :=
  (results.zip urls).map (fun pr => processOne pr.1 pr.2)

/-! ### Price cleaning and derived discounts (scrapper.py FarmaponteScraper) -/

/-- Python `str.replace(pat, rep)`. -/
def pyReplace (s pat rep : String) : String :=
  joinWith rep (strSplitOn s pat)

/-- Greedy `(?:\.\d{3})*` : consume thousands groups. -/
def takeThousands : List Char → List Char × List Char
  | '.' :: a :: b :: c :: rest =>
    if a.isDigit ∧ b.isDigit ∧ c.isDigit then
      let r := takeThousands rest
      ('.' :: a :: b :: c :: r.1, r.2)
    else ([], '.' :: a :: b :: c :: rest)
  | cs => ([], cs)

/-- Match `\d{1,3}(?:\.\d{3})*(?:,\d{2})?` at the head of the list, returning
the matched characters. -/
def matchPrecoAt (cs : List Char) : Option (List Char) :=
  let d1 := (cs.takeWhile Char.isDigit).take 3
  if d1 = [] then none
  else
    let rest := cs.drop d1.length
    let th := takeThousands rest
    let dec : List Char :=
      match th.2 with
      | ',' :: a :: b :: _ => if a.isDigit ∧ b.isDigit then [',', a, b] else []
      | _ => []
    some (d1 ++ th.1 ++ dec)

/-- `re.search` for the price pattern: leftmost match. -/
def searchPreco : List Char → Option (List Char)
  | [] => none
  | c :: rest =>
    match matchPrecoAt (c :: rest) with
    | some m => some m
    | none => searchPreco rest

/-- `limpar_preco(preco_str)` (scrapper.py:380-392): falsy input gives
`None`; otherwise strip `R$`, search for the price pattern, drop thousands
separators, and read the comma as a decimal point.  Unmatchable text gives
`None`, never an error. -/
def limpar_preco (s : String) : Option ℚ :=
  if s = "" then none
  else
    match searchPreco (pyReplace s "R$" "").toList with
    | none => none
    | some m =>
      let intChars := (m.takeWhile (· ≠ ',')).filter (· ≠ '.')
      let decChars := (m.dropWhile (· ≠ ',')).drop 1
      some ((digitsVal intChars : ℚ) + (digitsVal decChars : ℚ) / 10 ^ decChars.length)

/-- Python `round(x, 2)` on the exact rational value (the tie-breaking of
binary floats is not exercised by any claim). -/
def roundTo2 (q : ℚ) : ℚ :=
  ((round (q * 100) : ℤ) : ℚ) / 100

/-- `round(unit_price - discount_price, 2) if unit_price and discount_price
else None` (scrapper.py:471, and scrapper.py:133 in `processar_produto`):
note the Python truthiness test — a present price equal to 0.0 disables the
derived field. -/
def desconto (unit_price discount_price : Option ℚ) : Option ℚ :=
  match unit_price, discount_price with
  | some u, some d => if u ≠ 0 ∧ d ≠ 0 then some (roundTo2 (u - d)) else none
  | _, _ => none

/-- The two derived fields of `processar_produto_rapido`
(scrapper.py:471-472): `Desconto` and `Desconto_com_pix`. -/
def processarDescontos (unit_price discount_price pix_price : Option ℚ) :
    Option ℚ × Option ℚ :=
  (desconto unit_price discount_price, desconto unit_price pix_price)

/-- The derived-discount rule as the spec words it: the derived field is the
rounded difference whenever both operands are present (non-null), and null
otherwise.  Kept separate from `desconto` for comparison. -/
def descontoSpec (unit_price discount_price : Option ℚ) : Option ℚ :=
  match unit_price, discount_price with
  | some u, some d => some (roundTo2 (u - d))
  | _, _ => none

/-! ### Extraction validator (`scrape_all_categories_enhanced`) -/

/-- `extraction_rate` (enhanced_scraper.py:338): percentage, or 0 when no
expectation is known. -/
def extractionRate (expected actual : Nat) : ℚ :=
  if 0 < expected then (actual : ℚ) / (expected : ℚ) * 100 else 0

/-- The low-extraction warning condition (enhanced_scraper.py:340). -/
def lowExtraction (expected actual : Nat) : Bool :=
  extractionRate expected actual < 80

/-- Result accumulation of `scrape_all_categories_enhanced`
(enhanced_scraper.py:327-355): each category's link set is stored in the
results before (and regardless of) the extraction-rate warning.  Input:
`(category, expected count, links found)` per category. -/
def scrape_all_categories_enhanced_results
    (cats : List (String × Nat × List String)) : List (String × List String) :=
  cats.map (fun c => (c.1, c.2.2))

/-! #### Fetcher lemmas -/

theorem fetchPageGo_none (net : Nat → AttemptOutcome) :
    ∀ fuel start, (∀ i, start ≤ i → i < start + fuel → (net i).isFailure) →
      fetchPageGo net start fuel = none := by
  intro fuel
  induction fuel with
  | zero => intro start _; rfl
  | succ n ih =>
    intro start h
    have hstart : (net start).isFailure := h start le_rfl (by omega)
    unfold fetchPageGo
    cases hnet : net start with
    | ok body => rw [hnet] at hstart; simp [AttemptOutcome.isFailure] at hstart
    | status429 => exact ih (start + 1) (fun i h1 h2 => h i (by omega) (by omega))
    | statusOther c => exact ih (start + 1) (fun i h1 h2 => h i (by omega) (by omega))
    | timeout => exact ih (start + 1) (fun i h1 h2 => h i (by omega) (by omega))
    | netError => exact ih (start + 1) (fun i h1 h2 => h i (by omega) (by omega))

theorem fetchPageGo_budget (net net' : Nat → AttemptOutcome) :
    ∀ fuel start, (∀ i, start ≤ i → i < start + fuel → net i = net' i) →
      fetchPageGo net start fuel = fetchPageGo net' start fuel := by
  intro fuel
  induction fuel with
  | zero => intro start _; rfl
  | succ n ih =>
    intro start h
    have hstart : net start = net' start := h start le_rfl (by omega)
    unfold fetchPageGo
    rw [hstart]
    cases net' start with
    | ok body => rfl
    | status429 => exact ih (start + 1) (fun i h1 h2 => h i (by omega) (by omega))
    | statusOther c => exact ih (start + 1) (fun i h1 h2 => h i (by omega) (by omega))
    | timeout => exact ih (start + 1) (fun i h1 h2 => h i (by omega) (by omega))
    | netError => exact ih (start + 1) (fun i h1 h2 => h i (by omega) (by omega))

theorem baixarUrlGo_none (net : Nat → AttemptOutcome) (url : String) :
    ∀ fuel start st, (∀ i, start ≤ i → i < start + fuel → (net i).isFailure) →
      (baixarUrlGo net url start fuel st).1 = none := by
  intro fuel
  induction fuel with
  | zero => intro start st _; rfl
  | succ n ih =>
    intro start st h
    have hstart : (net start).isFailure := h start le_rfl (by omega)
    unfold baixarUrlGo
    cases hnet : net start with
    | ok body => rw [hnet] at hstart; simp [AttemptOutcome.isFailure] at hstart
    | status429 =>
      simp only [bump]
      exact ih (start + 1) _ (fun i h1 h2 => h i (by omega) (by omega))
    | statusOther c =>
      simp only [bump]
      exact ih (start + 1) _ (fun i h1 h2 => h i (by omega) (by omega))
    | timeout =>
      simp only [bump]
      exact ih (start + 1) _ (fun i h1 h2 => h i (by omega) (by omega))
    | netError =>
      simp only [bump]
      exact ih (start + 1) _ (fun i h1 h2 => h i (by omega) (by omega))

theorem baixarUrlGo_success (net : Nat → AttemptOutcome) (url : String) :
    ∀ fuel start st body st' n,
      baixarUrlGo net url start fuel st = (some body, st', n) →
      st'.consecutiveErrors = 0 ∧ st'.urlCache = st.urlCache ++ [(url, body)] := by
  intro fuel
  induction fuel with
  | zero =>
    intro start st body st' n h
    simp [baixarUrlGo] at h
  | succ m ih =>
    intro start st body st' n h
    unfold baixarUrlGo at h
    rcases hnet : net start with b | - | c | - | -
    case ok =>
      rw [hnet] at h
      simp only [Prod.mk.injEq, Option.some.injEq] at h
      obtain ⟨hb, hst, -⟩ := h
      subst hb
      subst hst
      exact ⟨rfl, rfl⟩
    all_goals
      rw [hnet] at h
      rcases hrec : baixarUrlGo net url (start + 1) m
        { st with consecutiveErrors := st.consecutiveErrors + 1 } with ⟨res, st2, k⟩
      rw [hrec] at h
      simp only [bump, Prod.mk.injEq] at h
      obtain ⟨h1, h2, -⟩ := h
      rw [h1, h2] at hrec
      simpa using ih (start + 1)
        { st with consecutiveErrors := st.consecutiveErrors + 1 } body st' k hrec

theorem lookup_append_of_none {l : List (String × String)} {url b : String}
    (h : l.lookup url = none) : (l ++ [(url, b)]).lookup url = some b := by
  induction l with
  | nil => simp [List.lookup]
  | cons p rest ih =>
    obtain ⟨k, v⟩ := p
    by_cases hk : url = k
    · subst hk
      simp [List.lookup_cons] at h
    · simp only [List.cons_append, List.lookup_cons, beq_false_of_ne hk] at h ⊢
      exact ih h

/-! #### Set-insertion lemmas -/

theorem setAdd_nodup {s : List String} (h : s.Nodup) (u : String) :
    (setAdd s u).Nodup := by
  unfold setAdd
  split
  · exact h
  · rename_i hu
    refine List.Nodup.append h (List.nodup_singleton u) ?_
    intro x hx hx'
    rw [List.mem_singleton] at hx'
    exact hu (hx' ▸ hx)

theorem mem_setAdd {s : List String} {u x : String} :
    x ∈ setAdd s u ↔ x ∈ s ∨ x = u := by
  unfold setAdd
  split
  · rename_i hu
    constructor
    · exact Or.inl
    · rintro (h | rfl)
      · exact h
      · exact hu
  · simp

theorem extendWith_nodup (f : Anchor → Option String) :
    ∀ (xs : List Anchor) (s : List String), s.Nodup →
      (extendWith f s xs).Nodup := by
  intro xs
  induction xs with
  | nil => intro s h; exact h
  | cons a rest ih =>
    intro s h
    unfold extendWith
    cases hfa : f a
    · exact ih _ h
    · exact ih _ (setAdd_nodup h _)

theorem mem_extendWith (f : Anchor → Option String) :
    ∀ (xs : List Anchor) (s : List String) (x : String),
      x ∈ extendWith f s xs ↔ x ∈ s ∨ ∃ a ∈ xs, f a = some x := by
  intro xs
  induction xs with
  | nil => intro s x; simp [extendWith]
  | cons a rest ih =>
    intro s x
    unfold extendWith
    cases hfa : f a with
    | none =>
      rw [ih]
      constructor
      · rintro (h | ⟨b, hb, hfb⟩)
        · exact Or.inl h
        · exact Or.inr ⟨b, List.mem_cons_of_mem _ hb, hfb⟩
      · rintro (h | ⟨b, hb, hfb⟩)
        · exact Or.inl h
        · rcases List.mem_cons.mp hb with rfl | hb'
          · rw [hfa] at hfb; cases hfb
          · exact Or.inr ⟨b, hb', hfb⟩
    | some u =>
      rw [ih]
      constructor
      · rintro (h | ⟨b, hb, hfb⟩)
        · rcases mem_setAdd.mp h with h' | rfl
          · exact Or.inl h'
          · exact Or.inr ⟨a, List.mem_cons_self a rest, hfa⟩
        · exact Or.inr ⟨b, List.mem_cons_of_mem _ hb, hfb⟩
      · rintro (h | ⟨b, hb, hfb⟩)
        · exact Or.inl (mem_setAdd.mpr (Or.inl h))
        · rcases List.mem_cons.mp hb with rfl | hb'
          · rw [hfa] at hfb
            exact Or.inl (mem_setAdd.mpr (Or.inr (Option.some.inj hfb).symm))
          · exact Or.inr ⟨b, hb', hfb⟩

/-! #### Strategy guards only emit resolved hrefs -/

theorem method1_some {base : String} {a : Anchor} {u : String}
    (h : method1 base a = some u) :
    ∃ s, a.href = some s ∧ u = urljoin base s := by
  cases ha : a.href with
  | none => simp [method1, ha] at h
  | some s =>
    simp only [method1, ha] at h
    split at h
    · exact ⟨s, rfl, (Option.some.inj h).symm⟩
    · cases h

theorem method2_some {base : String} {a : Anchor} {u : String}
    (h : method2 base a = some u) :
    ∃ s, a.href = some s ∧ u = urljoin base s := by
  cases ha : a.href with
  | none => simp [method2, ha] at h
  | some s =>
    simp only [method2, ha] at h
    split at h
    · exact ⟨s, rfl, (Option.some.inj h).symm⟩
    · cases h

theorem method2e_some {base : String} {a : Anchor} {u : String}
    (h : method2e base a = some u) :
    ∃ s, a.href = some s ∧ u = urljoin base s := by
  cases ha : a.href with
  | none => simp [method2e, ha] at h
  | some s =>
    simp only [method2e, ha] at h
    split at h
    · exact ⟨s, rfl, (Option.some.inj h).symm⟩
    · cases h

theorem method3e_some {base : String} {a : Anchor} {u : String}
    (h : method3e base a = some u) :
    ∃ s, a.href = some s ∧ u = urljoin base s := by
  cases ha : a.href with
  | none => simp [method3e, ha] at h
  | some s =>
    simp only [method3e, ha] at h
    split at h
    · cases h
    · split at h
      · cases h
      · split at h
        · exact ⟨s, rfl, (Option.some.inj h).symm⟩
        · cases h

theorem method4e_some {base : String} {a : Anchor} {u : String}
    (h : method4e base a = some u) :
    ∃ s, a.href = some s ∧ u = urljoin base s := by
  cases ha : a.href with
  | none => simp [method4e, ha] at h
  | some s =>
    simp only [method4e, ha] at h
    split at h
    · exact ⟨s, rfl, (Option.some.inj h).symm⟩
    · cases h

theorem scrape_get (results : List GatherOutcome) (urls : List String)
    (i : Nat) (hr : i < results.length) (hi : i < urls.length)
    (ho : i < (scrape_product_details results urls).length) :
    (scrape_product_details results urls).get ⟨i, ho⟩
      = processOne (results.get ⟨i, hr⟩) (urls.get ⟨i, hi⟩) := by
  induction results generalizing urls i with
  | nil => simp only [List.length_nil] at hr; omega
  | cons r rs ih =>
    cases urls with
    | nil => simp only [List.length_nil] at hi; omega
    | cons u us =>
      cases i with
      | zero => rfl
      | succ n =>
        exact ih us n (Nat.lt_of_succ_lt_succ hr) (Nat.lt_of_succ_lt_succ hi)
          (Nat.lt_of_succ_lt_succ ho)

theorem findGtin_malformed :
    ∀ l : List JsonScript, (∀ s ∈ l, s = JsonScript.malformed) →
      findGtin l = "" := by
  intro l
  induction l with
  | nil => intro _; rfl
  | cons s rest ih =>
    intro h
    have hs := h s (List.mem_cons_self s rest)
    subst hs
    exact ih (fun t ht => h t (List.mem_cons_of_mem _ ht))

theorem acharLoop_none :
    ∀ texts, (∀ t ∈ texts, searchPagina t.toList = none) →
      acharTotalPaginasLoop texts = 1 := by
  intro texts
  induction texts with
  | nil => intro _; rfl
  | cons t ts ih =>
    intro h
    have ht := h t (List.mem_cons_self t ts)
    have hrest := fun u hu => h u (List.mem_cons_of_mem _ hu)
    unfold acharTotalPaginasLoop
    split
    · rw [ht]
      exact ih hrest
    · exact ih hrest

theorem getCatLoop_products :
    ∀ texts (pages products : Int),
      (∀ t ∈ texts, containsSubstr t "resultados" = false) →
      (getCategoryInfoLoop texts (pages, products)).2 = products := by
  intro texts
  induction texts with
  | nil => intro _ _ _; rfl
  | cons t ts ih =>
    intro pages products h
    have ht := h t (List.mem_cons_self t ts)
    have hrest := fun u hu => h u (List.mem_cons_of_mem _ hu)
    unfold getCategoryInfoLoop
    split
    · split
      · split
        · exact ih _ _ hrest
        · exact ih _ _ hrest
      · exact ih _ _ hrest
    · split
      · rename_i hres
        rw [ht] at hres
        cases hres
      · exact ih _ _ hrest

theorem getCatLoopE_products :
    ∀ texts (pages products : Int),
      (∀ t ∈ texts, containsSubstr t "resultados" = false ∧
        containsSubstr t "resultado" = false) →
      (getCategoryInfoEnhancedLoop texts (pages, products)).2 = products := by
  intro texts
  induction texts with
  | nil => intro _ _ _; rfl
  | cons t ts ih =>
    intro pages products h
    have ht := h t (List.mem_cons_self t ts)
    have hrest := fun u hu => h u (List.mem_cons_of_mem _ hu)
    unfold getCategoryInfoEnhancedLoop
    split
    · split
      · split
        · exact ih _ _ hrest
        · exact ih _ _ hrest
      · exact ih _ _ hrest
    · split
      · rename_i hres
        rcases hres with hres | hres
        · rw [ht.1] at hres; cases hres
        · rw [ht.2] at hres; cases hres
      · exact ih _ _ hrest

theorem findCleanHref_some :
    ∀ (l : List Anchor) (h : String), findCleanHref l = some h →
      ∃ a ∈ l, a.href = some h ∧ h ≠ "" ∧ strEndsWith h "/p" = true := by
  intro l
  induction l with
  | nil => intro h hf; cases hf
  | cons b rest ih =>
    intro h hf
    cases hb : b.href with
    | none =>
      simp only [findCleanHref, hb] at hf
      obtain ⟨a, ha, h1⟩ := ih h hf
      exact ⟨a, List.mem_cons_of_mem _ ha, h1⟩
    | some s =>
      simp only [findCleanHref, hb] at hf
      split at hf
      · rename_i hcond
        obtain rfl := Option.some.inj hf
        exact ⟨b, List.mem_cons_self b rest, hb, hcond.1, hcond.2⟩
      · obtain ⟨a, ha, h1⟩ := ih h hf
        exact ⟨a, List.mem_cons_of_mem _ ha, h1⟩

theorem findCleanHref_none :
    ∀ (l : List Anchor), findCleanHref l = none →
      ∀ a ∈ l, ∀ s, a.href = some s → s ≠ "" →
        strEndsWith s "/p" = false := by
  intro l
  induction l with
  | nil => intro _ a ha; cases ha
  | cons b rest ih =>
    intro hf a ha s hs hne
    cases hb : b.href with
    | none =>
      simp only [findCleanHref, hb] at hf
      rcases List.mem_cons.mp ha with rfl | ha'
      · rw [hb] at hs; cases hs
      · exact ih hf a ha' s hs hne
    | some w =>
      simp only [findCleanHref, hb] at hf
      split at hf
      · cases hf
      · rename_i hcond
        rcases List.mem_cons.mp ha with rfl | ha'
        · rw [hb] at hs
          obtain rfl := Option.some.inj hs
          cases he : strEndsWith w "/p"
          · rfl
          · exact absurd ⟨hne, he⟩ hcond
        · exact ih hf a ha' s hs hne

theorem desconto_some_iff (up dp : Option ℚ) :
    (∀ q, desconto up dp = some q →
      ∃ u d, up = some u ∧ dp = some d ∧ u ≠ 0 ∧ d ≠ 0 ∧
        q = roundTo2 (u - d)) ∧
    (∀ u d, up = some u → dp = some d → u ≠ 0 → d ≠ 0 →
      desconto up dp = some (roundTo2 (u - d))) := by
  constructor
  · intro q hq
    cases up with
    | none => simp [desconto] at hq
    | some u =>
      cases dp with
      | none => simp [desconto] at hq
      | some d =>
        simp only [desconto] at hq
        split at hq
        · rename_i hcond
          exact ⟨u, d, rfl, rfl, hcond.1, hcond.2, (Option.some.inj hq).symm⟩
        · cases hq
  · intro u d hu hd hu0 hd0
    subst hu
    subst hd
    simp only [desconto]
    rw [if_pos ⟨hu0, hd0⟩]

/-! ### Claim theorems -/

/-- C1: `scrape_product_details` over a URL list (with the gathered results
list of the same length, as `asyncio.gather` guarantees) returns exactly one
record per URL, index-aligned — the i-th record is produced from the i-th
outcome and URL — and every failed position (exception or falsy fetch
result) carries the `FAILED_TO_FETCH` sentinel name and the requested URL in
its link field. -/
theorem scrape_details_aligned_c1 (results : List GatherOutcome)
    (urls : List String) (hlen : results.length = urls.length) :
    (scrape_product_details results urls).length = urls.length ∧
    ∀ (i : Nat) (hr : i < results.length) (hi : i < urls.length)
      (ho : i < (scrape_product_details results urls).length),
      (scrape_product_details results urls).get ⟨i, ho⟩
        = processOne (results.get ⟨i, hr⟩) (urls.get ⟨i, hi⟩) ∧
      ((results.get ⟨i, hr⟩).failed = true →
        ((scrape_product_details results urls).get ⟨i, ho⟩).name
            = "FAILED_TO_FETCH" ∧
        ((scrape_product_details results urls).get ⟨i, ho⟩).link
            = urls.get ⟨i, hi⟩) := by
  constructor
  · simp [scrape_product_details, hlen]
  · intro i hr hi ho
    have hg := scrape_get results urls i hr hi ho
    refine ⟨hg, fun hfail => ?_⟩
    rw [hg]
    cases hres : results.get ⟨i, hr⟩ with
    | exception => exact ⟨rfl, rfl⟩
    | empty => exact ⟨rfl, rfl⟩
    | page p => rw [hres] at hfail; cases hfail

/-- Witness for C1: two failing outcomes over two URLs give two sentinel
records in order. -/
theorem scrape_details_aligned_c1_witness :
    (scrape_product_details [GatherOutcome.exception, GatherOutcome.empty]
      ["u1", "u2"]).length = 2 ∧
    ((scrape_product_details [GatherOutcome.exception, GatherOutcome.empty]
      ["u1", "u2"]).get ⟨1, by decide⟩).name = "FAILED_TO_FETCH" ∧
    ((scrape_product_details [GatherOutcome.exception, GatherOutcome.empty]
      ["u1", "u2"]).get ⟨1, by decide⟩).link = "u2" := by
  have h := scrape_details_aligned_c1
    [GatherOutcome.exception, GatherOutcome.empty] ["u1", "u2"] rfl
  have h2 := (h.2 1 (by decide) (by decide) (by decide)).2 rfl
  exact ⟨h.1, h2.1, h2.2⟩

/-- C2: both link extractors return duplicate-free sets, and every member of
either set is an extracted anchor href resolved against the base URL. -/
theorem link_extractor_c2 (page : CatPage) (baseUrl : String) :
    (extract_product_links_from_page page baseUrl).Nodup ∧
    (∀ u ∈ extract_product_links_from_page page baseUrl,
      ∃ a ∈ page.anchors, ∃ s, a.href = some s ∧ u = urljoin baseUrl s) ∧
    (extract_product_links_from_page_enhanced page baseUrl).Nodup ∧
    (∀ u ∈ extract_product_links_from_page_enhanced page baseUrl,
      ∃ a, (a ∈ page.anchors ∨ ∃ c ∈ page.containers, a ∈ c.anchors) ∧
        ∃ s, a.href = some s ∧ u = urljoin baseUrl s) := by
  refine ⟨?_, ?_, ?_, ?_⟩
  · exact extendWith_nodup _ _ _ (extendWith_nodup _ _ _ List.nodup_nil)
  · intro u hu
    unfold extract_product_links_from_page at hu
    rcases (mem_extendWith _ _ _ _).mp hu with hu1 | ⟨a, ha, hfa⟩
    · rcases (mem_extendWith _ _ _ _).mp hu1 with hu0 | ⟨a, ha, hfa⟩
      · cases hu0
      · obtain ⟨s, hs, hus⟩ := method1_some hfa
        exact ⟨a, ha, s, hs, hus⟩
    · obtain ⟨s, hs, hus⟩ := method2_some hfa
      exact ⟨a, ha, s, hs, hus⟩
  · exact extendWith_nodup _ _ _ (extendWith_nodup _ _ _
      (extendWith_nodup _ _ _ (extendWith_nodup _ _ _ List.nodup_nil)))
  · intro u hu
    unfold extract_product_links_from_page_enhanced at hu
    rcases (mem_extendWith _ _ _ _).mp hu with hu3 | ⟨a, ha, hfa⟩
    · rcases (mem_extendWith _ _ _ _).mp hu3 with hu2 | ⟨a, ha, hfa⟩
      · rcases (mem_extendWith _ _ _ _).mp hu2 with hu1 | ⟨a, ha, hfa⟩
        · rcases (mem_extendWith _ _ _ _).mp hu1 with hu0 | ⟨a, ha, hfa⟩
          · cases hu0
          · obtain ⟨s, hs, hus⟩ := method1_some hfa
            exact ⟨a, Or.inl ha, s, hs, hus⟩
        · obtain ⟨s, hs, hus⟩ := method2e_some hfa
          exact ⟨a, Or.inl ha, s, hs, hus⟩
      · obtain ⟨s, hs, hus⟩ := method3e_some hfa
        exact ⟨a, Or.inl ha, s, hs, hus⟩
    · obtain ⟨s, hs, hus⟩ := method4e_some hfa
      obtain ⟨c, hc, hac⟩ := List.mem_flatMap.mp ha
      exact ⟨a, Or.inr ⟨c, (List.mem_filter.mp hc).1, (List.mem_filter.mp hac).1⟩,
        s, hs, hus⟩

/-- Witness for C2: a concrete category page; the resolved URL in the
enhanced extractor's output comes from an extracted anchor href. -/
theorem link_extractor_c2_witness :
    ∃ a ∈ ([⟨some "/a/b/p", ["item-image"]⟩] : List Anchor), ∃ s,
      a.href = some s ∧
      "https://www.farmaponte.com.br/a/b/p" = urljoin farmaponteBase s :=
  (link_extractor_c2 ⟨[⟨some "/a/b/p", ["item-image"]⟩], []⟩ farmaponteBase).2.1
    "https://www.farmaponte.com.br/a/b/p" (by decide)

/-- C5: for the expected failure modes (timeout, network error, non-200
status) both fetchers return the failure value `None` after the fixed
attempt budget — no exception propagates — and attempts beyond the budget
are never consulted. -/
theorem fetcher_no_raise_c5 (net : Nat → AttemptOutcome)
    (retries tentativas : Nat) (url : String) (st : ScraperState)
    (h1 : ∀ i, i < retries → (net i).isFailure)
    (h2 : ∀ i, i < tentativas → (net i).isFailure)
    (hmiss : st.urlCache.lookup url = none) :
    fetchPage net retries = none ∧
    (baixarUrl net url tentativas st).1 = none ∧
    (∀ g : Nat → AttemptOutcome, (∀ i, i < retries → net i = g i) →
      fetchPage g retries = fetchPage net retries) := by
  refine ⟨?_, ?_, ?_⟩
  · exact fetchPageGo_none net retries 0 (fun i _ h => h1 i (by omega))
  · unfold baixarUrl
    rw [hmiss]
    exact baixarUrlGo_none net url tentativas 0 st (fun i _ h => h2 i (by omega))
  · intro g hg
    exact (fetchPageGo_budget net g retries 0 (fun i _ h => hg i (by omega))).symm

/-- Witness for C5: an always-timing-out network exhausts the budget and
yields `None` from both fetchers. -/
theorem fetcher_no_raise_c5_witness :
    fetchPage (fun _ => AttemptOutcome.timeout) 3 = none ∧
    (baixarUrl (fun _ => AttemptOutcome.timeout)
      "https://www.farmaponte.com.br/saude/" 2 ⟨[], 0⟩).1 = none := by
  have h := fetcher_no_raise_c5 (fun _ => AttemptOutcome.timeout) 3 2
    "https://www.farmaponte.com.br/saude/" ⟨[], 0⟩
    (fun i _ => rfl) (fun i _ => rfl) rfl
  exact ⟨h.1, h.2.1⟩

/-- C6 counterexample: the also-cited `fetch_page`
(extracao_farmaponte.py:88-125) keeps no cache and no error counter — a
first call succeeds with one network request, and a second call for the
same URL issues a fresh network request (1, not 0) and returns whatever the
network now serves, which need not be byte-identical to the first body. -/
theorem fetch_no_cache_c6_counterexample :
    fetchPage (fun _ => AttemptOutcome.ok "FIRST") 3 = some "FIRST" ∧
    fetchPageRequests (fun _ => AttemptOutcome.ok "FIRST") 0 3 = 1 ∧
    fetchPage (fun _ => AttemptOutcome.ok "SECOND") 3 = some "SECOND" ∧
    fetchPageRequests (fun _ => AttemptOutcome.ok "SECOND") 0 3 = 1 ∧
    (some "SECOND" : Option String) ≠ some "FIRST" :=
  ⟨rfl, rfl, rfl, rfl, by decide⟩

/-- C6 (amended): for `baixar_url` — the fetcher that owns the cache and
the error counter — after a genuine HTTP-200 fetch of an uncached URL, the
body is cached under the exact URL, the consecutive-error counter is reset
to zero, and every later fetch of the same URL returns the byte-identical
cached body with zero network requests and an unchanged state.  (The
also-cited `fetch_page` has no cache: each call issues fresh network
requests, per the counterexample.) -/
theorem fetch_cache_idempotent_c6 (net : Nat → AttemptOutcome) (url : String)
    (tentativas : Nat) (st : ScraperState) (body : String)
    (st' : ScraperState) (n : Nat)
    (hmiss : st.urlCache.lookup url = none)
    (h : baixarUrl net url tentativas st = (some body, st', n)) :
    st'.urlCache.lookup url = some body ∧
    st'.consecutiveErrors = 0 ∧
    ∀ (g : Nat → AttemptOutcome) (t : Nat),
      baixarUrl g url t st' = (some body, st', 0) := by
  unfold baixarUrl at h
  rw [hmiss] at h
  obtain ⟨herr, hcache⟩ := baixarUrlGo_success net url tentativas 0 st body st' n h
  have hl : st'.urlCache.lookup url = some body := by
    rw [hcache]
    exact lookup_append_of_none hmiss
  refine ⟨hl, herr, ?_⟩
  intro g t
  unfold baixarUrl
  rw [hl]

/-- Witness for C6: one successful fetch caches the body; a later fetch
against a dead network still answers from the cache with zero requests. -/
theorem fetch_cache_idempotent_c6_witness :
    (ScraperState.mk [("u", "HTML")] 0).urlCache.lookup "u" = some "HTML" ∧
    baixarUrl (fun _ => AttemptOutcome.netError) "u" 5 ⟨[("u", "HTML")], 0⟩
      = (some "HTML", ⟨[("u", "HTML")], 0⟩, 0) := by
  have h := fetch_cache_idempotent_c6 (fun _ => AttemptOutcome.ok "HTML") "u" 2
    ⟨[], 0⟩ "HTML" ⟨[("u", "HTML")], 0⟩ 1 rfl rfl
  exact ⟨h.1, h.2.2 (fun _ => AttemptOutcome.netError) 5⟩

/-- C3 counterexample: on a category first page with no pagination text, the
cited `get_category_info` reports 0 pages — not 1 as the claim states for
every cited pagination-discovery function. -/
theorem pagination_absent_c3_counterexample :
    (get_category_info ["794 resultados"]).1 = 0 ∧ ((0 : Int) ≠ 1) :=
  ⟨by decide, by decide⟩

/-- C3 (amended): `achar_total_paginas` returns Y for the `Página X de Y`
pattern (`Página 1 de 40` gives 40) and 1 — not an error — when no
pagination text matches; `get_category_info` also returns Y for the pattern
but reports 0, not 1, when no pagination text is present. -/
theorem pagination_discovery_c3 :
    (∀ texts, (∀ t ∈ texts, searchPagina t.toList = none) →
      achar_total_paginas (some texts) = 1) ∧
    achar_total_paginas none = 1 ∧
    achar_total_paginas (some ["Página 1 de 40"]) = 40 ∧
    (get_category_info ["Página 1 de 40"]).1 = 40 ∧
    (get_category_info ["uma pagina sem paginacao"]).1 = 0 := by
  refine ⟨?_, rfl, by decide, by decide, by decide⟩
  intro texts h
  exact acharLoop_none texts h

/-- Witness for C3 (amended): a page whose only candidate text has no
pagination pattern yields page count 1 from `achar_total_paginas`. -/
theorem pagination_discovery_c3_witness :
    achar_total_paginas (some ["sem texto de paginacao"]) = 1 :=
  pagination_discovery_c3.1 ["sem texto de paginacao"] (by decide)

/-- C4 counterexample: the cited extracao-farmaponte `get_category_info`
does not tolerate the singular phrasing — on `1 resultado` it reports 0
expected products, not 1. -/
theorem results_count_c4_counterexample :
    (get_category_info ["1 resultado"]).2 = 0 ∧ ((0 : Int) ≠ 1) :=
  ⟨by decide, by decide⟩

/-- C4 (amended): the enhanced `get_category_info` tolerates both plural
(`794 resultados` gives 794) and singular (`1 resultado` gives 1) phrasing;
the original `get_category_info` parses the plural only — on singular text
it reports 0 — and both report 0, not an error, when no results-count text
is present. -/
theorem results_count_c4 :
    (get_category_info_enhanced ["794 resultados"]).2 = 794 ∧
    (get_category_info_enhanced ["1 resultado"]).2 = 1 ∧
    (get_category_info ["794 resultados"]).2 = 794 ∧
    (get_category_info ["1 resultado"]).2 = 0 ∧
    (∀ texts, (∀ t ∈ texts, containsSubstr t "resultados" = false ∧
        containsSubstr t "resultado" = false) →
      (get_category_info_enhanced texts).2 = 0 ∧
      (get_category_info texts).2 = 0) := by
  refine ⟨by decide, by decide, by decide, by decide, ?_⟩
  intro texts h
  exact ⟨getCatLoopE_products texts 0 0 h,
    getCatLoop_products texts 0 0 (fun t ht => (h t ht).1)⟩

/-- Witness for C4 (amended): a page with only pagination text yields 0
expected products from both discovery functions. -/
theorem results_count_c4_witness :
    (get_category_info_enhanced ["Página 1 de 2"]).2 = 0 ∧
    (get_category_info ["Página 1 de 2"]).2 = 0 :=
  results_count_c4.2.2.2.2 ["Página 1 de 2"] (by decide)

/-- C7: `extract_product_details` is total on every page (the embedding
returns a complete record for every input), and a JSON parse failure is
field-local: a page whose JSON-LD scripts are all malformed produces exactly
the record of the same page with no scripts — every other field is still
extracted — with the gtin field left at its default `""`. -/
theorem extract_details_field_local_c7 (p : ProductPage) (url : String)
    (h : ∀ s ∈ p.jsonScripts, s = JsonScript.malformed) :
    extract_product_details p url
      = extract_product_details { p with jsonScripts := [] } url ∧
    (extract_product_details p url).gtin = "" := by
  have hg := findGtin_malformed p.jsonScripts h
  constructor
  · unfold extract_product_details
    rw [hg]
    rfl
  · show findGtin p.jsonScripts = ""
    exact hg

/-- Witness for C7 at a concrete page whose only JSON-LD script is
malformed: the name field is still extracted and gtin stays empty. -/
theorem extract_details_field_local_c7_witness :
    extract_product_details
        ⟨some " Dipirona 500mg ", none, [JsonScript.malformed], [], none,
          none, none, none, none, none⟩ "u"
      = extract_product_details
        ⟨some " Dipirona 500mg ", none, [], [], none, none, none, none,
          none, none⟩ "u" ∧
    (extract_product_details
        ⟨some " Dipirona 500mg ", none, [JsonScript.malformed], [], none,
          none, none, none, none, none⟩ "u").gtin = "" :=
  extract_details_field_local_c7 _ "u" (by decide)

/-- C8 counterexample: the claim says a derived discount is null only when
an operand is null, but the code's Python truthiness test also nullifies it
when a present price is 0.0 — a value `limpar_preco` really produces
(e.g. on `R$ 0,00`).  With unit price 0 and discount price 5 both present,
the code yields `None` while the spec's rule yields −5. -/
theorem derived_discount_c8_counterexample :
    desconto (some 0) (some 5) = none ∧
    descontoSpec (some 0) (some 5) = some (roundTo2 (0 - 5)) ∧
    roundTo2 ((0 : ℚ) - 5) = -5 ∧
    limpar_preco "R$ 0,00" = some 0 := by
  refine ⟨by simp [desconto], rfl, ?_, ?_⟩
  · unfold roundTo2
    have h1 : ((0 : ℚ) - 5) * 100 = ((-500 : ℤ) : ℚ) := by norm_num
    rw [h1, round_intCast]
    norm_num
  · have hs : searchPreco (pyReplace "R$ 0,00" "R$" "").toList
        = some ['0', ',', '0', '0'] := by decide
    unfold limpar_preco
    rw [if_neg (by decide), hs]
    show some (((digitsVal ['0'] : ℚ)) + (digitsVal ['0', '0'] : ℚ) / 10 ^
      (['0', '0'] : List Char).length) = some 0
    norm_num [digitsVal]

/-- C8 (amended): each derived field (`Desconto`, `Desconto_com_pix`) equals
the unit price minus the other price, rounded to 2 decimal places, whenever
both operands are present AND non-zero; it is null otherwise — in
particular a present price of 0.0 is treated as absent by the truthiness
test. -/
theorem derived_discount_c8 (up dp pp : Option ℚ) :
    (∀ q, (processarDescontos up dp pp).1 = some q →
      ∃ u d, up = some u ∧ dp = some d ∧ u ≠ 0 ∧ d ≠ 0 ∧
        q = roundTo2 (u - d)) ∧
    (∀ u d, up = some u → dp = some d → u ≠ 0 → d ≠ 0 →
      (processarDescontos up dp pp).1 = some (roundTo2 (u - d))) ∧
    (∀ q, (processarDescontos up dp pp).2 = some q →
      ∃ u w, up = some u ∧ pp = some w ∧ u ≠ 0 ∧ w ≠ 0 ∧
        q = roundTo2 (u - w)) ∧
    (∀ u w, up = some u → pp = some w → u ≠ 0 → w ≠ 0 →
      (processarDescontos up dp pp).2 = some (roundTo2 (u - w))) :=
  ⟨(desconto_some_iff up dp).1, (desconto_some_iff up dp).2,
   (desconto_some_iff up pp).1, (desconto_some_iff up pp).2⟩

/-- Witness for C8 (amended) at concrete non-zero prices. -/
theorem derived_discount_c8_witness :
    (processarDescontos (some 10) (some (7 / 2)) none).1
      = some (roundTo2 (10 - 7 / 2)) :=
  (derived_discount_c8 (some 10) (some (7 / 2)) none).2.1 10 (7 / 2) rfl rfl
    (by norm_num) (by norm_num)

/-- C9: the enhanced pipeline flags a category as low-extraction exactly
when actual/expected < 0.8 (given a known positive expectation):
expected 794 with actual 650 (81.9%) is not flagged, actual 600 (75.6%) is;
and the links found are stored in the results for every category, flagged
or not. -/
theorem extraction_validator_c9 :
    (∀ e a : Nat, 0 < e →
      (lowExtraction e a = true ↔ (a : ℚ) / (e : ℚ) < 4 / 5)) ∧
    lowExtraction 794 650 = false ∧
    lowExtraction 794 600 = true ∧
    (∀ (cats : List (String × Nat × List String)) (c : String) (e : Nat)
      (links : List String), (c, e, links) ∈ cats →
      (c, links) ∈ scrape_all_categories_enhanced_results cats) := by
  refine ⟨?_, ?_, ?_, ?_⟩
  · intro e a he
    unfold lowExtraction extractionRate
    rw [if_pos he, decide_eq_true_iff]
    constructor
    · intro h; linarith
    · intro h; linarith
  · unfold lowExtraction extractionRate
    rw [if_pos (by norm_num), decide_eq_false_iff_not]
    push_cast
    norm_num
  · unfold lowExtraction extractionRate
    rw [if_pos (by norm_num), decide_eq_true_iff]
    push_cast
    norm_num
  · intro cats c e links h
    unfold scrape_all_categories_enhanced_results
    exact List.mem_map.mpr ⟨(c, e, links), h, rfl⟩

/-- Witness for C9 at a concrete category list and a concrete rate. -/
theorem extraction_validator_c9_witness :
    (lowExtraction 794 650 = true ↔
      ((650 : ℕ) : ℚ) / ((794 : ℕ) : ℚ) < 4 / 5) ∧
    ("saude", ["u"]) ∈
      scrape_all_categories_enhanced_results [("saude", 794, ["u"])] :=
  ⟨extraction_validator_c9.1 794 650 (by norm_num),
   extraction_validator_c9.2.2.2 [("saude", 794, ["u"])] "saude" 794 ["u"]
     (by decide)⟩

/-- C10 counterexample: the claim's "only when" direction fails — a page can
contain an anchor whose href ends in `/p` that resolves exactly to the
requested URL, so the link field equals the input even though such an anchor
exists. -/
theorem record_link_c10_counterexample :
    (extract_product_details
        ⟨none, none, [], [⟨some "/x/p", []⟩], none, none, none, none, none,
          none⟩ "https://www.farmaponte.com.br/x/p").link
      = "https://www.farmaponte.com.br/x/p" ∧
    (∃ a ∈ ([⟨some "/x/p", []⟩] : List Anchor), ∃ s, a.href = some s ∧
      strEndsWith s "/p" = true) :=
  ⟨by decide, ⟨⟨some "/x/p", []⟩, by decide, "/x/p", rfl, by decide⟩⟩

/-- C10 (amended): when the page has no anchor with a truthy href ending in
`/p`, the record's link is the requested URL; when such an anchor exists,
the link is the first such href resolved against the site base — a value
that may differ from, but can also coincide with, the requested URL. -/
theorem record_link_c10 (p : ProductPage) (url : String) :
    (findCleanHref p.anchors = none →
      (extract_product_details p url).link = url) ∧
    (∀ h, findCleanHref p.anchors = some h →
      (extract_product_details p url).link = urljoin farmaponteBase h) ∧
    (∀ h, findCleanHref p.anchors = some h →
      ∃ a ∈ p.anchors, a.href = some h ∧ h ≠ "" ∧
        strEndsWith h "/p" = true) ∧
    (findCleanHref p.anchors = none →
      ∀ a ∈ p.anchors, ∀ s, a.href = some s → s ≠ "" →
        strEndsWith s "/p" = false) := by
  refine ⟨?_, ?_, ?_, ?_⟩
  · intro hn
    simp only [extract_product_details]
    rw [hn]
  · intro h hh
    simp only [extract_product_details]
    rw [hh]
  · intro h hh
    exact findCleanHref_some p.anchors h hh
  · intro hn a ha s hs hne
    exact findCleanHref_none p.anchors hn a ha s hs hne

/-- Witness for C10 (amended): a page whose first clean anchor is `/y/p`
rewrites the record link to the resolved product URL. -/
theorem record_link_c10_witness :
    (extract_product_details
        ⟨none, none, [], [⟨some "/y/p", []⟩], none, none, none, none, none,
          none⟩ "u").link = urljoin farmaponteBase "/y/p" :=
  (record_link_c10 _ "u").2.1 "/y/p" (by decide)

end Farma
